import Mathlib

/-!
Verification of the natural-language specification of the
`cpp-advanced-vector` repository (file `src/advanced-vector/vector.h`)
against a shallow embedding of its code.

Two embeddings are used, both translated from the source:

* a value-level model (`Vec`) in which a vector is its capacity plus the
  list of its live element values; pointer iterators of the source are
  modelled as indices (offsets from `begin()`), which is how the spec
  itself reads positions ("interpreted as an index");

* a slot-level model (`Buf` / `SlotVec`) in which a buffer is a list of
  slots, each either constructed (`some v`) or raw (`none`), together with
  an event trace recording the constructor, destructor, assignment and
  deallocation calls an operation performs.  Element copy construction can
  be made to fail at a chosen invocation, following the failure-injection
  scenarios of the spec.  Applying a destructor to a raw slot (undefined
  behaviour in C++) is recorded as the event `Event.destroyRaw`.
-/

namespace AdvancedVector

/-! ## Value-level model -/

/-- A vector as its capacity (`RawMemory` capacity_) and the list of its
live element values; `size_` of the source is the length of `elems`. -/
structure Vec (α : Type) where
  cap : Nat
  elems : List α
deriving DecidableEq

def Vec.size (v : Vec α) : Nat := v.elems.length

/-- `Vector::EmplaceBack` (vector.h lines 214-231): if `size_ < Capacity()`
construct the new element in slot `size_`; else allocate a new buffer of
capacity `size_ == 0 ? 1 : size_ * 2`, construct the new element there at
index `size_`, relocate the old elements, and adopt the new buffer.  In
both branches `++size_`.  The value-level net effect on success is
appending `x`. -/
def Vec.EmplaceBack (v : Vec α) (x : α) : Vec α :=
  if v.size < v.cap then
    ⟨v.cap, v.elems ++ [x]⟩
  else
    ⟨if v.size = 0 then 1 else v.size * 2, v.elems ++ [x]⟩

/-- Map with an index that starts at `i0`. -/
def mapIdxFrom (f : Nat → α → α) : Nat → List α → List α
  | _, [] => []
  | i, a :: as => f i a :: mapIdxFrom f (i + 1) as

/-- The in-capacity branch of `Vector::Emplace` (vector.h lines 266-275),
acting on the live-element list `elems` of length `n`:
1. `new(end()) T(std::move((*this)[Size() - 1]))` appends the last
   element (the list gets length `n + 1`);
2. `std::move_backward(begin() + index, end() - 1, end())` shifts the
   range `[index, n - 1)` one slot right; it works back to front, so each
   source slot is read before it is overwritten and every destination slot
   `k` with `index < k < n` receives the original value of slot `k - 1`;
3. `data_[index] = std::move(temp)` writes the new value into slot
   `index`.
Every reachable call has `n ≥ 1` (the branch reads `(*this)[Size() - 1]`);
the `getLastD` default is never used at the inputs traced below. -/
def emplaceShiftPath (elems : List α) (index : Nat) (x : α) : List α :=
  let n := elems.length
  let b1 := elems ++ [elems.getLastD x]
  let b2 := mapIdxFrom (fun k v => if index < k ∧ k < n then b1.getD (k - 1) v else v) 0 b1
  b2.set index x

/-- `Vector::Emplace` (vector.h lines 257-305).  The source first runs
`if (pos == end()) { EmplaceBack(...); }` WITHOUT returning, then computes
`index = pos - begin()` (modelled as the index `pos` itself) and runs the
shift path when `size_ < Capacity()` or the reallocation path otherwise,
finishing with `++size_` and `return begin() + index`.  The reallocation
branch is given by its success-path net effect (prefix relocated to
`[0, index)`, new element at `index`, suffix relocated to
`[index + 1, size + 1)`); its failure behaviour is modelled at slot level
below.  Returns the resulting vector and the returned index. -/
def Vec.Emplace (v : Vec α) (pos : Nat) (x : α) : Vec α × Nat :=
  let v1 := if pos = v.size then v.EmplaceBack x else v
  let index := pos
  if v1.size < v1.cap then
    (⟨v1.cap, emplaceShiftPath v1.elems index x⟩, index)
  else
    (⟨if v1.size = 0 then 1 else v1.size * 2,
      v1.elems.take index ++ x :: v1.elems.drop index⟩, index)

/-- `Vector::Insert` (vector.h lines 248-250): forwards to `Emplace`. -/
def Vec.Insert (v : Vec α) (pos : Nat) (x : α) : Vec α × Nat :=
  v.Emplace pos x

/-! ## Slot-level model -/

/-- A raw buffer as a list of slots: `some v` = slot holds a constructed
value `v`, `none` = raw, uninitialized storage.  The capacity is the
length of the list. -/
abbrev Buf (α : Type) := List (Option α)

/-- Events recording the element-level and memory-level calls an
operation performs.  `destroyRaw` records a destructor applied to a slot
that holds no constructed value (undefined behaviour in the source). -/
inductive Event (α : Type) where
  | destroy (v : α)
  | destroyRaw
  | assign (v : α)
  | copyCtor (v : α)
  | moveCtor (v : α)
  | dealloc (blockId : Nat)
deriving DecidableEq

/-- A `Vector<T>`: its buffer of slots plus `size_`. -/
structure SlotVec (α : Type) where
  buf : Buf α
  size : Nat
deriving DecidableEq

def SlotVec.cap (v : SlotVec α) : Nat := v.buf.length

/-- The invariant of the spec (§3, claim C9): `size ≤ capacity`, slots
`[0, size)` constructed, slots `[size, capacity)` raw. -/
def SlotVec.WF (v : SlotVec α) : Prop :=
  v.size ≤ v.cap ∧
    ∀ i, i < v.cap →
      (i < v.size → v.buf.getD i none ≠ none) ∧
      (v.size ≤ i → v.buf.getD i none = none)

instance [DecidableEq α] (v : SlotVec α) : Decidable v.WF := by
  unfold SlotVec.WF
  infer_instance

/-- Overwrite the slots `[t, t + xs.length)` of `b` with `xs`.  Every use
below is in bounds (`t + xs.length ≤ b.length`), matching the
`assert(offset <= capacity_)` of `RawMemory::operator+`. -/
def setRange (b : Buf α) (t : Nat) (xs : List (Option α)) : Buf α :=
  b.take t ++ xs ++ b.drop (t + xs.length)

/-- The slots `[s, s + n)` of `b`. -/
def segmentOpt (b : Buf α) (s n : Nat) : List (Option α) :=
  (b.drop s).take n

/-- The values held by the slots `[s, s + n)` of `b`; every use below
reads constructed slots only, so the `default` of a raw slot is never
relied upon. -/
def segment [Inhabited α] (b : Buf α) (s n : Nat) : List α :=
  (segmentOpt b s n).map (fun o => o.getD default)

/-- The values still constructed anywhere in a buffer (used to report the
values whose destructors never ran when a raw block is deallocated). -/
def liveVals (b : Buf α) : List α :=
  b.filterMap id

/-- `std::destroy_n(b + s, n)`: runs the destructor of each slot in
`[s, s + n)`, leaving the slots raw.  A slot that holds no constructed
value yields `Event.destroyRaw` (undefined behaviour in the source). -/
def destroySlots (b : Buf α) (s n : Nat) : Buf α × List (Event α) :=
  (setRange b s (List.replicate n none),
   (segmentOpt b s n).map (fun o =>
     match o with
     | some v => Event.destroy v
     | none => Event.destroyRaw))

/-- `std::uninitialized_move_n(src + s, n, dst + t)`: move-constructs the
values of `src` slots `[s, s + n)` into `dst` slots `[t, t + n)`.  The
source slots keep their (moved-from) objects, which stay constructed and
are destroyed later by `destroy_n`. -/
def uninitMoveN [Inhabited α] (src dst : Buf α) (s t n : Nat) :
    Buf α × List (Event α) :=
  (setRange dst t ((segment src s n).map some),
   (segment src s n).map Event.moveCtor)

/-- `std::uninitialized_copy_n(src + s, n, dst + t)` with failure
injection: when `failAt = some k` with `k < n`, the copy constructor of
the `k`-th element throws; the standard requires the `k` already
constructed destination objects to be destroyed (in reverse order here)
before the exception propagates, so the destination is returned to its
prior raw state and only the events are reported in the error case. -/
def uninitCopyN [Inhabited α] (src dst : Buf α) (s t n : Nat)
    (failAt : Option Nat) : Except (List (Event α)) (Buf α × List (Event α)) :=
  let vals := segment src s n
  match failAt with
  | some k =>
    if k < n then
      Except.error ((vals.take k).map Event.copyCtor ++
        ((vals.take k).reverse.map Event.destroy))
    else
      Except.ok (setRange dst t (vals.map some), vals.map Event.copyCtor)
  | none =>
    Except.ok (setRange dst t (vals.map some), vals.map Event.copyCtor)

/-- The two compile-time capability queries `MoveElements` branches on:
`std::is_nothrow_move_constructible_v<T>` and
`std::is_copy_constructible_v<T>`. -/
structure Traits where
  nothrowMove : Bool
  copyCtor : Bool
deriving DecidableEq

/-- `Vector::MoveElements(from, size, to)` (vector.h lines 419-431),
generalized with the source/destination offsets its callers use: relocate
`n` slots from `src + s` into `dst + t` by move when the type has a
nothrow move constructor or no copy constructor, otherwise by copy (which
may fail at `failAt`); afterwards `std::destroy_n(from, n)` destroys the
source slots.  On a copy failure the exception propagates before the
`destroy_n`, so the source and destination are unchanged and only the
events are reported.  Moves are modelled as infallible: in the source a
move relocation is chosen for a throwing move constructor only when the
type cannot be copied at all, and no claim exercises that failure. -/
def MoveElements [Inhabited α] (tr : Traits) (src dst : Buf α) (s t n : Nat)
    (failAt : Option Nat) :
    Except (List (Event α)) (Buf α × Buf α × List (Event α)) :=
  if tr.nothrowMove || !tr.copyCtor then
    let (d, ev) := uninitMoveN src dst s t n
    let (b, ev2) := destroySlots src s n
    Except.ok (b, d, ev ++ ev2)
  else
    match uninitCopyN src dst s t n failAt with
    | Except.ok (d, ev) =>
      let (b, ev2) := destroySlots src s n
      Except.ok (b, d, ev ++ ev2)
    | Except.error ev => Except.error ev

/-- `Vector::Vector(const Vector&)` (vector.h lines 91-96): allocate a
`RawMemory` of capacity `other.Size()`, then
`uninitialized_copy_n(other.data_, size_, data_)`.  `s` is the list of the
live element values of the source.  On an element-copy failure the
partially constructed run is destroyed (the `uninitialized_copy_n`
guarantee), the exception propagates out of the constructor, and the
`RawMemory` member destructor frees the fresh block; only the events are
reported in that case. -/
def copyConstruct [Inhabited α] (s : List α) (failAt : Option Nat) :
    Except (List (Event α)) (SlotVec α × List (Event α)) :=
  match uninitCopyN (s.map some) (List.replicate s.length none) 0 0 s.length failAt with
  | Except.ok (b, ev) => Except.ok (⟨b, s.length⟩, ev)
  | Except.error ev => Except.error ev

/-- `Vector::operator=(const Vector&)` (vector.h lines 112-147).  `self`
models the pointer identity test `this == &other` (true exactly for
self-assignment).  When `data_.Capacity() < other.size_`: build a full
temporary copy and `Swap` it in (the temporary, holding the old contents
after the swap, is destroyed at scope exit, contributing the trailing
destroy events); an element-copy failure propagates before the `Swap`, so
the error carries the unmodified target.  Otherwise: copy-assign the first
`min(size_, other.size_)` slots; if the source is longer, copy-construct
the missing tail (a failure there propagates with the already assigned
prefix kept, `size_` not yet updated); else
`destroy_n(data_.GetAddress() + size_, size_ - other.size_)` — note the
source starts this destroy range at `size_`, not at `other.size_`.
Finally `size_ = other.size_`.  Element copy-assignment is modelled as
non-failing (no claim exercises its failure). -/
def copyAssign [Inhabited α] (self : Bool) (t s : SlotVec α) (failAt : Option Nat) :
    Except (SlotVec α × List (Event α)) (SlotVec α × List (Event α)) :=
  if self then
    Except.ok (t, [])
  else if t.cap < s.size then
    match copyConstruct (segment s.buf 0 s.size) failAt with
    | Except.error ev => Except.error (t, ev)
    | Except.ok (nv, ev) =>
      let (_, ev2) := destroySlots t.buf 0 t.size
      Except.ok (nv, ev ++ ev2)
  else
    let m := min t.size s.size
    let b1 := setRange t.buf 0 (segmentOpt s.buf 0 m)
    let evA := (segment s.buf 0 m).map Event.assign
    if t.size < s.size then
      match uninitCopyN s.buf b1 t.size t.size (s.size - t.size) failAt with
      | Except.ok (b2, evC) => Except.ok (⟨b2, s.size⟩, evA ++ evC)
      | Except.error evC => Except.error (⟨b1, t.size⟩, evA ++ evC)
    else
      let (b2, evD) := destroySlots b1 t.size (t.size - s.size)
      Except.ok (⟨b2, s.size⟩, evA ++ evD)

/-- The final vector of a successful `copyAssign`. -/
def caOk [Inhabited α] (r : Except (SlotVec α × List (Event α)) (SlotVec α × List (Event α))) :
    Option (SlotVec α) :=
  match r with
  | Except.ok (v, _) => some v
  | Except.error _ => none

/-- The final vector after a `copyAssign` that propagated a failure. -/
def caErr [Inhabited α] (r : Except (SlotVec α × List (Event α)) (SlotVec α × List (Event α))) :
    Option (SlotVec α) :=
  match r with
  | Except.error (v, _) => some v
  | Except.ok _ => none

/-! ### Move assignment (claim C5) -/

/-- `RawMemory<T>`: the identity of its heap block (`0` = nullptr) plus
its slots.  Block identities let the model state when a given allocation
is deallocated. -/
structure RawMem (α : Type) where
  blockId : Nat
  buf : Buf α
deriving DecidableEq

/-- `RawMemory::operator=(RawMemory&&)` (vector.h lines 455-463):
`buffer_ = std::move(other.buffer_); capacity_ = std::move(other.capacity_);`
then the source is nulled.  The target's previous block is overwritten
without a `Deallocate` call and no element destructor runs, so the event
trace is empty.  Returns (new target, new source, events). -/
def rawMoveAssign (t s : RawMem α) : RawMem α × RawMem α × List (Event α) :=
  (⟨s.blockId, s.buf⟩, ⟨0, []⟩, [])

/-- A `Vector<T>` carrying its buffer with a block identity. -/
structure RVec (α : Type) where
  mem : RawMem α
  size : Nat
deriving DecidableEq

/-- `Vector::operator=(Vector&&)` (vector.h lines 151-158):
`data_ = std::move(other.data_); size_ = std::move(other.size_);
other.size_ = 0;`.  Nothing destroys the target's previous elements or
deallocates its previous block. -/
def vecMoveAssign (t s : RVec α) : RVec α × RVec α × List (Event α) :=
  let (m, sm, ev) := rawMoveAssign t.mem s.mem
  (⟨m, s.size⟩, ⟨sm, 0⟩, ev)

/-! ### Append and insert growth paths with failure injection -/

/-- Outcome of `EmplaceBack` at slot level: final vector, events,
values still constructed in the new block when it was deallocated during
stack unwinding (their destructors never ran), and whether an exception
propagated. -/
structure EBResult (α : Type) where
  vec : SlotVec α
  events : List (Event α)
  leakedNew : List α
  threw : Bool
deriving DecidableEq

/-- `Vector::EmplaceBack` (vector.h lines 214-231) at slot level.
In-capacity branch: construct the new element in slot `size_`.  Growth
branch: allocate `RawMemory(size_ == 0 ? 1 : size_ * 2)`, construct the
new element at index `size_` in the NEW buffer first, then
`MoveElements(data_, size_, new_data)`, then `data_.Swap(new_data)`.
There is no try/catch: if the relocation throws, the exception propagates,
`new_data`'s destructor deallocates the new block, and every slot still
constructed in it — including the fresh element — is leaked
(`RawMemory::~RawMemory` runs no element destructor). -/
def emplaceBackSlots [Inhabited α] (tr : Traits) (v : SlotVec α) (x : α)
    (failAt : Option Nat) : EBResult α :=
  if v.size < v.cap then
    ⟨⟨v.buf.set v.size (some x), v.size + 1⟩, [], [], false⟩
  else
    let g := if v.size = 0 then 1 else v.size * 2
    let nd1 := (List.replicate g (none : Option α)).set v.size (some x)
    match MoveElements tr v.buf nd1 0 0 v.size failAt with
    | Except.error ev => ⟨v, ev, liveVals nd1, true⟩
    | Except.ok (oldB, nd2, ev) => ⟨⟨nd2, v.size + 1⟩, ev, liveVals oldB, false⟩

/-- Outcome of the growth branch of `Emplace`: final vector, returned
index (`none` when an exception propagated), events, and the values
leaked when the new block was deallocated during unwinding. -/
structure EmpResult (α : Type) where
  vec : SlotVec α
  ret : Option Nat
  events : List (Event α)
  leakedNew : List α
  threw : Bool
deriving DecidableEq

/-- The growth branch of `Vector::Emplace` (vector.h lines 278-301) at
slot level: allocate `RawMemory(size_ == 0 ? 1 : size_ * 2)`, construct
the new element at `new_data + index`; relocate the prefix `[0, index)`
with `catch { destroy_at(new_data + index); throw; }`; relocate the
suffix `[index, size_)` to `new_data + (index + 1)` with
`catch { destroy_n(data_.GetAddress(), index + 1); throw; }` — note the
destroy in the second catch targets the OLD buffer `data_`; then
`data_.Swap(new_data)` and `++size_`.  On a throw, `new_data`'s
destructor deallocates its block and its still-constructed slots are
leaked. -/
def emplaceGrowSlots [Inhabited α] (tr : Traits) (v : SlotVec α) (index : Nat)
    (x : α) (failPre failSuf : Option Nat) : EmpResult α :=
  let g := if v.size = 0 then 1 else v.size * 2
  let nd1 := (List.replicate g (none : Option α)).set index (some x)
  match MoveElements tr v.buf nd1 0 0 index failPre with
  | Except.error ev =>
    let (nd1d, evd) := destroySlots nd1 index 1
    ⟨v, none, ev ++ evd, liveVals nd1d, true⟩
  | Except.ok (oldB, nd2, ev1) =>
    match MoveElements tr oldB nd2 index (index + 1) (v.size - index) failSuf with
    | Except.error ev2 =>
      let (oldB2, ev3) := destroySlots oldB 0 (index + 1)
      ⟨⟨oldB2, v.size⟩, none, ev1 ++ ev2 ++ ev3, liveVals nd2, true⟩
    | Except.ok (oldB2, nd3, ev2) =>
      ⟨⟨nd3, v.size + 1⟩, some index, ev1 ++ ev2, liveVals oldB2, false⟩

/-! ## Theorems for claims C1 and C6 -/

/-- C1: the claim states that `Emplace`/`Insert` at `pos = end()` appends
exactly one element (resulting length = prior length + 1).  The code
violates it: the `pos == end()` branch calls `EmplaceBack` but does not
return, falling through into the shift path, which inserts the element a
second time.  At the concrete input: a vector of capacity 4 holding `[5]`,
`Emplace` at the end position 1 with value 7 yields `[5, 7, 7]` of size 3
(prior size 1 + 2), not `[5, 7]` of size 2. -/
theorem emplace_at_end_double_inserts :
    Vec.Emplace (⟨4, [5]⟩ : Vec Nat) 1 7 = (⟨4, [5, 7, 7]⟩, 1) ∧
      (Vec.Emplace (⟨4, [5]⟩ : Vec Nat) 1 7).1.size = 3 := by
  constructor
  · rfl
  · rfl

/-- C6: an append on a vector with `size = capacity = c` grows the
capacity to exactly `max 1 (2 * c)` (capacity 0 grows to 1, otherwise it
doubles) and the size becomes `c + 1`. -/
theorem emplaceBack_growth_capacity (v : Vec α) (x : α) (h : v.size = v.cap) :
    (v.EmplaceBack x).cap = max 1 (2 * v.cap) ∧
      (v.EmplaceBack x).size = v.cap + 1 := by
  unfold Vec.EmplaceBack
  have hlt : ¬ v.size < v.cap := by omega
  rw [if_neg hlt]
  constructor
  · simp only [h]
    rcases Nat.eq_zero_or_pos v.cap with h0 | h0
    · simp [h0]
    · have : v.cap ≠ 0 := by omega
      simp only [this, if_false]
      omega
  · simp [Vec.size] at h ⊢
    omega

/-- Witness for C6 at a concrete input: the empty vector of capacity 0
grows to capacity 1 = max 1 0 and size 1. -/
theorem emplaceBack_growth_capacity_witness :
    ((⟨0, []⟩ : Vec Nat).EmplaceBack 9).cap = max 1 (2 * 0) ∧
      ((⟨0, []⟩ : Vec Nat).EmplaceBack 9).size = 0 + 1 :=
  emplaceBack_growth_capacity (⟨0, []⟩ : Vec Nat) 9 (by decide)

/-! ## Helper lemmas -/

theorem segment_length [Inhabited α] (b : Buf α) (n : Nat) (hn : n ≤ b.length) :
    (segment b 0 n).length = n := by
  simp [segment, segmentOpt, Nat.min_eq_left hn]

theorem segment_map_some_getD [Inhabited α] (b : Buf α) (n i : Nat) (hn : n ≤ b.length)
    (hi : i < n) (hlive : b.getD i none ≠ none) :
    ((segment b 0 n).map some).getD i none = b.getD i none := by
  have hib : i < b.length := lt_of_lt_of_le hi hn
  have hlen : ((segment b 0 n).map some).length = n := by
    simp [segment_length b n hn]
  rw [List.getD_eq_getElem _ _ (by rw [hlen]; exact hi)]
  rw [List.getD_eq_getElem _ _ hib] at hlive ⊢
  obtain ⟨v, hv⟩ := Option.ne_none_iff_exists.mp hlive
  simp [segment, segmentOpt, List.getElem_take, ← hv]

theorem setRange_replicate_getD (b : Buf α) (n i : Nat) (hi : i < n) :
    (setRange b 0 (List.replicate n (none : Option α))).getD i none = none := by
  unfold setRange
  simp only [List.take_zero, List.nil_append, List.length_replicate, Nat.zero_add]
  rw [List.getD_append _ _ _ _ (by simpa using hi)]
  rw [List.getD_eq_getElem _ _ (by simpa using hi)]
  simp

theorem destroyEvents_of_live [Inhabited α] (b : Buf α) (n : Nat) (hn : n ≤ b.length)
    (hlive : ∀ i, i < n → b.getD i none ≠ none) :
    ((segmentOpt b 0 n).map (fun o =>
        match o with
        | some v => Event.destroy v
        | none => Event.destroyRaw)) = (segment b 0 n).map Event.destroy := by
  unfold segment
  rw [List.map_map]
  apply List.map_congr_left
  intro o ho
  obtain ⟨i, hilen, hio⟩ := List.mem_iff_getElem.mp ho
  have hlt : i < n := by
    have := hilen
    simp only [segmentOpt, List.drop_zero, List.length_take] at this
    omega
  have hib : i < b.length := lt_of_lt_of_le hlt hn
  have hbo : b[i] = o := by
    rw [← hio]
    simp [segmentOpt, List.getElem_take]
  have : o ≠ none := by
    have := hlive i hlt
    rw [List.getD_eq_getElem _ _ hib, hbo] at this
    exact this
  obtain ⟨v, hv⟩ := Option.ne_none_iff_exists.mp this
  simp [← hv]

theorem segment_map_some [Inhabited α] (vals : List α) :
    segment (vals.map some) 0 vals.length = vals := by
  unfold segment segmentOpt
  rw [List.drop_zero, ← List.length_map vals some, List.take_length, List.map_map]
  have h : ((fun o : Option α => o.getD default) ∘ some) = fun v => v := by
    funext v
    rfl
  rw [h]
  simp

theorem copyConstruct_fail [Inhabited α] (vals : List α) (k : Nat) (hk : k < vals.length) :
    copyConstruct vals (some k) =
      Except.error ((vals.take k).map Event.copyCtor ++
        ((vals.take k).reverse.map Event.destroy)) := by
  unfold copyConstruct uninitCopyN
  rw [segment_map_some]
  simp [hk]

theorem copyConstruct_ok [Inhabited α] (vals : List α) :
    copyConstruct vals none =
      Except.ok (⟨vals.map some, vals.length⟩, vals.map Event.copyCtor) := by
  unfold copyConstruct uninitCopyN
  rw [segment_map_some]
  unfold setRange
  simp

/-- C2: the claim states that for `target = source` with sufficient
capacity and a strictly shorter source, exactly the surplus trailing LIVE
elements of the target — indices `[source.size, target.size)` — are
destroyed.  The code violates it: line 140 runs
`destroy_n(data_.GetAddress() + size_, size_ - other.size_)`, a range that
starts at `size_` instead of `other.size_`.  At the concrete input
(target `[10, 20]`, size 2, capacity 4; source `[30]`, size 1) the
operation destroys the uninitialized slot 2 (`Event.destroyRaw`, no
`Event.destroy 20` occurs) and leaves the live element 20 in slot 1 even
though the final size is 1. -/
theorem copyAssign_shrink_destroys_wrong_slots :
    copyAssign false (⟨[some 10, some 20, none, none], 2⟩ : SlotVec Nat)
        ⟨[some 30, none], 1⟩ none =
      Except.ok (⟨[some 30, some 20, none, none], 1⟩,
        [Event.assign 30, Event.destroyRaw]) := by
  rfl

/-- C3: the claim states that when relocating the suffix fails during a
growth `Emplace`, the elements constructed in the NEW buffer (relocated
prefix plus new element) are destroyed and the vector keeps its prior
state.  The code violates it: the catch at line 296 runs
`destroy_n(data_.GetAddress(), index + 1)` on the OLD buffer.  At the
concrete input (vector `[10, 20]` at full capacity 2, copy-relocating
type, `Emplace` of 99 at index 1, suffix copy of 20 failing) the old
buffer slot 0 — already destroyed by the prefix relocation — is destroyed
again (`Event.destroyRaw`) and the live suffix element 20 is destroyed,
while the new buffer's prefix copy 10 and the new element 99 leak
(`leakedNew = [10, 99]`), and the final vector `⟨[none, none], 2⟩` is not
the prior `⟨[some 10, some 20], 2⟩`. -/
theorem emplaceGrow_suffix_failure_destroys_old_buffer :
    emplaceGrowSlots ⟨false, true⟩ (⟨[some 10, some 20], 2⟩ : SlotVec Nat)
        1 99 none (some 0) =
      ⟨⟨[none, none], 2⟩, none,
        [Event.copyCtor 10, Event.destroy 10, Event.destroyRaw, Event.destroy 20],
        [10, 99], true⟩ ∧
      (⟨[none, none], 2⟩ : SlotVec Nat) ≠ ⟨[some 10, some 20], 2⟩ := by
  constructor
  · rfl
  · decide

/-- C4: the claim states that when relocation fails during a growth
`EmplaceBack`, the freshly constructed element is destroyed as part of
the new buffer's cleanup.  The code violates it: `EmplaceBack` has no
try/catch, and during unwinding `RawMemory`'s destructor only deallocates
the block without running element destructors, so the fresh element leaks.
At the concrete input (vector `[10]` at full capacity 1, copy-relocating
type, `EmplaceBack(99)` with the relocation copy of 10 failing): the
exception propagates (`threw = true`), the vector does keep its prior
observable state `⟨[some 10], 1⟩`, but no destroy event occurs and 99 is
among the values whose destructor never ran (`leakedNew = [99]`). -/
theorem emplaceBack_growth_failure_leaks_new_element :
    emplaceBackSlots ⟨false, true⟩ (⟨[some 10], 1⟩ : SlotVec Nat) 99 (some 0) =
      ⟨⟨[some 10], 1⟩, [], [99], true⟩ := by
  rfl

/-- C5: the claim states that move assignment destroys each of the
target's previous live elements exactly once and deallocates its previous
block exactly once.  The code violates it:
`RawMemory::operator=(RawMemory&&)` overwrites `buffer_` without calling
`Deallocate`, and `Vector::operator=(Vector&&)` never destroys the old
elements.  At the concrete input (target holding element 10 in block 1,
source holding 20 in block 2) the event trace is empty: no
`Event.destroy 10` and no `Event.dealloc 1` ever occur. -/
theorem moveAssign_leaks_old_buffer :
    vecMoveAssign (⟨⟨1, [some 10]⟩, 1⟩ : RVec Nat) ⟨⟨2, [some 20]⟩, 1⟩ =
      (⟨⟨2, [some 20]⟩, 1⟩, ⟨⟨0, []⟩, 0⟩, []) := by
  rfl

/-- C9: the claim states that every public operation preserves the
invariant (`size ≤ capacity`, slots `[0, size)` constructed, slots
`[size, capacity)` raw) at entry and exit.  The code violates it: copy
assignment from a strictly shorter source with sufficient capacity (the
C2 slip) leaves a constructed value in slot 1 ≥ size.  Both inputs
satisfy the invariant, the operation completes normally, and the result
does not. -/
theorem copyAssign_breaks_invariant :
    (⟨[some 10, some 20, none, none], 2⟩ : SlotVec Nat).WF ∧
      (⟨[some 30, none], 1⟩ : SlotVec Nat).WF ∧
      caOk (copyAssign false (⟨[some 10, some 20, none, none], 2⟩ : SlotVec Nat)
          ⟨[some 30, none], 1⟩ none) = some ⟨[some 30, some 20, none, none], 1⟩ ∧
      ¬ (⟨[some 30, some 20, none, none], 1⟩ : SlotVec Nat).WF := by
  refine ⟨by decide, by decide, rfl, by decide⟩

/-- C7: whenever `MoveElements` relocates `n` live slots from an old
buffer into a new one, each element is relocated by move exactly when the
element type's move construction cannot fail or the type is not
copy-constructible (`Event.moveCtor` events under
`tr.nothrowMove || !tr.copyCtor`, `Event.copyCtor` events otherwise); the
destroy events of the old slots come after all the construction events;
afterwards the new buffer holds the old values at `[0, n)` and the old
buffer's first `n` slots are destroyed. -/
theorem MoveElements_relocation_policy [Inhabited α] (tr : Traits) (src dst : Buf α)
    (n : Nat) (hs : n ≤ src.length) (hd : n ≤ dst.length)
    (hlive : ∀ i, i < n → src.getD i none ≠ none) :
    MoveElements tr src dst 0 0 n none =
      Except.ok (setRange src 0 (List.replicate n none),
        setRange dst 0 ((segment src 0 n).map some),
        ((segment src 0 n).map (fun v =>
          if tr.nothrowMove || !tr.copyCtor then Event.moveCtor v else Event.copyCtor v))
        ++ (segment src 0 n).map Event.destroy) ∧
      (∀ i, i < n → (setRange src 0 (List.replicate n none)).getD i none = none) ∧
      (∀ i, i < n →
        (setRange dst 0 ((segment src 0 n).map some)).getD i none = src.getD i none) := by
  have hev := destroyEvents_of_live src n hs hlive
  refine ⟨?_, ?_, ?_⟩
  · unfold MoveElements uninitMoveN uninitCopyN destroySlots
    cases hc : tr.nothrowMove || !tr.copyCtor with
    | true => simp [hc, hev]
    | false => simp [hc, hev]
  · intro i hi
    exact setRange_replicate_getD src n i hi
  · intro i hi
    unfold setRange
    simp only [List.take_zero, List.nil_append, Nat.zero_add]
    rw [List.getD_append _ _ _ _ (by rw [List.length_map, segment_length src n hs]; exact hi)]
    exact segment_map_some_getD src n i hs hi (hlive i hi)

/-- Witness for C7 at a concrete input: a type with a nothrow move
constructor, source slots `[some 1, some 2]`, a raw destination of
capacity 3, relocating both slots. -/
theorem MoveElements_relocation_policy_witness :
    MoveElements ⟨true, true⟩ ([some 1, some 2] : Buf Nat) [none, none, none] 0 0 2 none =
      Except.ok (setRange [some 1, some 2] 0 (List.replicate 2 none),
        setRange [none, none, none] 0 ((segment [some 1, some 2] 0 2).map some),
        ((segment ([some 1, some 2] : Buf Nat) 0 2).map (fun v =>
          if (Traits.mk true true).nothrowMove || !(Traits.mk true true).copyCtor then
            Event.moveCtor v
          else Event.copyCtor v))
        ++ (segment ([some 1, some 2] : Buf Nat) 0 2).map Event.destroy) ∧
      (∀ i, i < 2 →
        (setRange ([some 1, some 2] : Buf Nat) 0 (List.replicate 2 none)).getD i none = none) ∧
      (∀ i, i < 2 →
        (setRange ([none, none, none] : Buf Nat) 0
          ((segment ([some 1, some 2] : Buf Nat) 0 2).map some)).getD i none =
          ([some 1, some 2] : Buf Nat).getD i none) :=
  MoveElements_relocation_policy ⟨true, true⟩ [some 1, some 2] [none, none, none] 2
    (by decide) (by decide) (by decide)

/-- C8: for `target = source` with `target.capacity < source.size`, the
copy-and-swap path gives the strong guarantee: when the copy constructor
of the `k`-th element fails during the temporary's construction, the
failure propagates (`copyAssign` yields an error) and the target is left
completely unmodified — same elements, same size, same capacity (the
error state IS `t`); on success the target's buffer holds exactly the
source's live values (element-wise equal on `[0, source.size)`), its size
is `source.size`, and its capacity is exactly `source.size`. -/
theorem copyAssign_copy_and_swap_strong [Inhabited α] (t s : SlotVec α) (k : Nat)
    (hcap : t.cap < s.size) (hsz : s.size ≤ s.buf.length) (hk : k < s.size)
    (hlive : ∀ i, i < s.size → s.buf.getD i none ≠ none) :
    caErr (copyAssign false t s (some k)) = some t ∧
      caOk (copyAssign false t s none) =
        some ⟨(segment s.buf 0 s.size).map some, s.size⟩ ∧
      ((segment s.buf 0 s.size).map some : Buf α).length = s.size ∧
      (∀ i, i < s.size →
        ((segment s.buf 0 s.size).map some).getD i none = s.buf.getD i none) := by
  have hvl : (segment s.buf 0 s.size).length = s.size := segment_length s.buf s.size hsz
  have hk2 : k < (segment s.buf 0 s.size).length := by rw [hvl]; exact hk
  refine ⟨?_, ?_, ?_, ?_⟩
  · unfold copyAssign
    rw [if_neg (by simp), if_pos hcap, copyConstruct_fail _ k hk2]
    rfl
  · unfold copyAssign
    rw [if_neg (by simp), if_pos hcap, copyConstruct_ok]
    unfold caOk
    rw [hvl]
  · rw [List.length_map, hvl]
  · intro i hi
    exact segment_map_some_getD s.buf s.size i hsz hi (hlive i hi)

/-- Witness for C8 at a concrete input: target of capacity 0, source
`[10, 20]` of size 2, failing copy at invocation `k = 1`. -/
theorem copyAssign_copy_and_swap_strong_witness :
    caErr (copyAssign false (⟨[], 0⟩ : SlotVec Nat) ⟨[some 10, some 20], 2⟩ (some 1)) =
        some ⟨[], 0⟩ ∧
      caOk (copyAssign false (⟨[], 0⟩ : SlotVec Nat) ⟨[some 10, some 20], 2⟩ none) =
        some ⟨(segment ([some 10, some 20] : Buf Nat) 0 2).map some, 2⟩ ∧
      ((segment ([some 10, some 20] : Buf Nat) 0 2).map some : Buf Nat).length = 2 ∧
      (∀ i, i < 2 →
        ((segment ([some 10, some 20] : Buf Nat) 0 2).map some).getD i none =
          ([some 10, some 20] : Buf Nat).getD i none) :=
  copyAssign_copy_and_swap_strong (⟨[], 0⟩ : SlotVec Nat) ⟨[some 10, some 20], 2⟩ 1
    (by decide) (by decide) (by decide) (by decide)

/-- C10: copy self-assignment is a no-op: `operator=(const Vector&)`
returns immediately when `this == &other` (modelled by `self = true`), so
the vector is unchanged and no element is copy-assigned, copy-constructed
or destroyed (empty event trace). -/
theorem copyAssign_self_noop [Inhabited α] (v : SlotVec α) :
    copyAssign true v v none = Except.ok (v, []) :=
  rfl

end AdvancedVector
